import Mathlib

/-!
Verification of the filter-and-aggregate pipeline of the fintech sentiment
dashboard (`src/app.py`), shallowly embedded in Lean.

The dashboard loads a flat review table, filters it by the selected app name
and (optionally) app version, and derives aggregates (sentiment counts, daily
review volume, a version-by-sentiment cross-tabulation) for the charts, plus
a hard-coded single-intent question matcher.  The table is embedded as a
`List Review`; pandas boolean-mask filtering becomes `List.filter`, grouping
becomes counting, and the group keys produced by `groupby` (which pandas
returns sorted ascending) become sorted duplicate-free key lists.
-/

namespace FinTech

/-- One row of the loaded review table (`data/fintech_reviews_sentiment.csv`),
with the columns used by `src/app.py`: `app_name`, `reviewCreatedVersion`
(nullable, hence `Option`), `sentiment_label`, `sentiment_score`, and `at`
(the raw timestamp string as read by `pd.read_csv`; it is only parsed later,
at line 73 of `src/app.py`). -/
structure Review where
  app_name : String
  reviewCreatedVersion : Option String
  sentiment_label : String
  sentiment_score : Int
  «at» : String
deriving DecidableEq

/-- Embeds `pandas.Series.unique` on a column of strings: the distinct values in
first-occurrence order.  `seen` accumulates the values already emitted. -/
def uniqueAux (seen : List String) : List String → List String
  | [] => []
  | x :: xs => if x ∈ seen then uniqueAux seen xs else x :: uniqueAux (x :: seen) xs

/-- Line 28, `df['app_name'].unique().tolist()`: distinct
values in first-occurrence order. -/
def unique (l : List String) : List String := uniqueAux [] l

/-- The app-name choices offered by the sidebar selector (line 28). -/
def app_names (df : List Review) : List String :=
  unique (df.map (·.app_name))

/-- Line 31: `filtered_df = df[df['app_name'] == selected_app]`.  Pandas
boolean-mask indexing keeps exactly the rows where the mask is true and
returns a new frame. -/
def appFiltered (df : List Review) (app : String) : List Review :=
  df.filter (fun r => r.app_name == app)

/-- Lines 36–37: `if selected_version != "All": filtered_df =
filtered_df[filtered_df['reviewCreatedVersion'] == selected_version]`.
A null (`NaN`) version never compares equal to a string in pandas, which the
`Option` equality `r.reviewCreatedVersion == some ver` reproduces. -/
def versionFiltered (view : List Review) (ver : String) : List Review :=
  if ver == "All" then view
  else view.filter (fun r => r.reviewCreatedVersion == some ver)

/-- The filtered view shown by the dashboard for a given app/version
selection: the app filter of line 31 followed by the version filter of
lines 36–37. -/
def filtered_df (df : List Review) (app ver : String) : List Review :=
  versionFiltered (appFiltered df app) ver

/-! ### Properties of `unique` -/

theorem mem_uniqueAux (a : String) :
    ∀ (l seen : List String), a ∈ uniqueAux seen l ↔ a ∈ l ∧ a ∉ seen := by
  intro l
  induction l with
  | nil => intro seen; simp [uniqueAux]
  | cons x xs ih =>
    intro seen
    by_cases hx : x ∈ seen
    · simp only [uniqueAux, if_pos hx, ih, List.mem_cons]
      constructor
      · rintro ⟨h1, h2⟩; exact ⟨Or.inr h1, h2⟩
      · rintro ⟨h1, h2⟩
        rcases h1 with rfl | h1
        · exact absurd hx h2
        · exact ⟨h1, h2⟩
    · simp only [uniqueAux, if_neg hx, List.mem_cons, ih]
      constructor
      · rintro (rfl | ⟨h1, h2⟩)
        · exact ⟨Or.inl rfl, hx⟩
        · refine ⟨Or.inr h1, fun hs => h2 (Or.inr hs)⟩
      · rintro ⟨h1 | h1, h2⟩
        · exact Or.inl h1
        · by_cases hax : a = x
          · exact Or.inl hax
          · refine Or.inr ⟨h1, fun hs => ?_⟩
            rcases hs with h | h
            · exact hax h
            · exact h2 h

theorem nodup_uniqueAux : ∀ (l seen : List String), (uniqueAux seen l).Nodup := by
  intro l
  induction l with
  | nil => intro seen; simp [uniqueAux]
  | cons x xs ih =>
    intro seen
    by_cases hx : x ∈ seen
    · simpa [uniqueAux, hx] using ih seen
    · simp only [uniqueAux, if_neg hx, List.nodup_cons]
      refine ⟨fun hmem => ?_, ih _⟩
      rcases (mem_uniqueAux x xs (x :: seen)).1 hmem with ⟨_, hns⟩
      exact hns (List.mem_cons_self x seen)

theorem mem_unique {a : String} {l : List String} : a ∈ unique l ↔ a ∈ l := by
  simp [unique, mem_uniqueAux]

theorem nodup_unique (l : List String) : (unique l).Nodup :=
  nodup_uniqueAux l []

/-! ### Counting rows grouped by a column -/

theorem length_filter_split (p : String → Bool) :
    ∀ l : List String,
      (l.filter p).length + (l.filter (fun x => !p x)).length = l.length := by
  intro l
  induction l with
  | nil => rfl
  | cons x xs ih => by_cases hx : p x <;> simp [List.filter_cons, hx] <;> omega

/-- Summing, over a duplicate-free list of keys covering every value of `l`,
the number of occurrences of each key recovers the length of `l`. -/
theorem sum_count_of_nodup :
    ∀ ns : List String, ns.Nodup →
      ∀ l : List String, (∀ x ∈ l, x ∈ ns) →
        (ns.map (fun x => l.count x)).sum = l.length := by
  intro ns
  induction ns with
  | nil =>
    intro _ l hl
    cases l with
    | nil => simp
    | cons y ys => exact absurd (hl y (List.mem_cons_self y ys)) (by simp)
  | cons n rest ih =>
    intro hnd l hl
    rcases List.nodup_cons.1 hnd with ⟨hn, hrest⟩
    have hcount : ∀ x ∈ rest, l.count x = (l.filter (fun y => !(y == n))).count x := by
      intro x hx
      have hxn : x ≠ n := fun h => hn (h ▸ hx)
      rw [List.count_filter (by simp [hxn])]
    have hsub : ∀ x ∈ l.filter (fun y => !(y == n)), x ∈ rest := by
      intro x hx
      rcases List.mem_filter.1 hx with ⟨hxl, hbool⟩
      rcases List.mem_cons.1 (hl x hxl) with rfl | h
      · simp at hbool
      · exact h
    have hrec := ih hrest (l.filter (fun y => !(y == n))) hsub
    have hmap : rest.map (fun x => l.count x) =
        rest.map (fun x => (l.filter (fun y => !(y == n))).count x) :=
      List.map_congr_left hcount
    have hsplit := length_filter_split (fun y => y == n) l
    have hcn : l.count n = (l.filter (fun y => y == n)).length := by
      rw [List.count_eq_countP, List.countP_eq_length_filter]
    simp only [List.map_cons, List.sum_cons, hmap, hrec, hcn]
    omega

/-- The number of rows of the app-filtered view is the number of occurrences
of the app name in the `app_name` column. -/
theorem length_appFiltered (df : List Review) (a : String) :
    (appFiltered df a).length = (df.map (·.app_name)).count a := by
  rw [appFiltered, ← List.countP_eq_length_filter, List.count_eq_countP,
    List.countP_map]
  rfl

theorem filtered_df_all (df : List Review) (app : String) :
    filtered_df df app "All" = appFiltered df app := by
  simp [filtered_df, versionFiltered]

/-! ### Concrete example table used by the witnesses -/

def exRow1 : Review :=
  ⟨"Google Pay", some "1.0", "negative", -1, "2023-01-01 10:00:00"⟩
def exRow2 : Review :=
  ⟨"PayPal", none, "positive", 1, "2023-01-02 11:00:00"⟩
def exRow3 : Review :=
  ⟨"Google Pay", some "1.1", "positive", 1, "2023-01-03 12:00:00"⟩

def exTable : List Review := [exRow1, exRow2, exRow3]

/-! ### C1: app filter partitions the table -/

/-- Claim C1: for every app name `a` occurring in the loaded table, filtering with
app `a` and version "All" returns exactly the rows whose `app_name` equals
`a`; the views for distinct app names are pairwise disjoint; and the lengths
of the views over all distinct app names sum to the length of the table, so
the views partition it. -/
theorem app_filter_partition (df : List Review) (a : String)
    (_ha : a ∈ app_names df) :
    (∀ r, r ∈ filtered_df df a "All" ↔ r ∈ df ∧ r.app_name = a) ∧
    (∀ b, b ≠ a → ∀ r, r ∈ filtered_df df a "All" → r ∉ filtered_df df b "All") ∧
    ((app_names df).map (fun x => (filtered_df df x "All").length)).sum
      = df.length := by
  refine ⟨?_, ?_, ?_⟩
  · intro r
    simp [filtered_df_all, appFiltered, List.mem_filter]
  · intro b hb r h1 h2
    rw [filtered_df_all, appFiltered] at h1 h2
    have ha' : r.app_name = a := eq_of_beq (List.mem_filter.1 h1).2
    have hb' : r.app_name = b := eq_of_beq (List.mem_filter.1 h2).2
    exact hb (hb' ▸ ha')
  · have hlen : ∀ x, (filtered_df df x "All").length
        = (df.map (·.app_name)).count x := by
      intro x
      rw [filtered_df_all, length_appFiltered]
    simp only [hlen]
    have := sum_count_of_nodup (app_names df) (nodup_unique _)
      (df.map (·.app_name)) (fun x hx => mem_unique.mpr hx)
    simpa using this

theorem app_filter_partition_witness :
    "Google Pay" ∈ app_names exTable ∧
    ((app_names exTable).map
      (fun x => (filtered_df exTable x "All").length)).sum = exTable.length :=
  ⟨by decide, (app_filter_partition exTable "Google Pay" (by decide)).2.2⟩

/-! ### C2: version selector semantics -/

/-- Claim C2: selecting "All" for the version leaves the app-filtered view
unchanged, and selecting any other version value restricts the view to
exactly the rows whose `reviewCreatedVersion` equals that value. -/
theorem version_filter_spec (df : List Review) (app ver : String) :
    filtered_df df app "All" = appFiltered df app ∧
    (ver ≠ "All" →
      ∀ r, r ∈ filtered_df df app ver ↔
        r ∈ appFiltered df app ∧ r.reviewCreatedVersion = some ver) := by
  refine ⟨filtered_df_all df app, fun hv r => ?_⟩
  have hb : (ver == "All") = false := by simpa using hv
  simp [filtered_df, versionFiltered, hb, List.mem_filter]

theorem version_filter_spec_witness :
    filtered_df exTable "Google Pay" "All" = appFiltered exTable "Google Pay" ∧
    (exRow1 ∈ filtered_df exTable "Google Pay" "1.0" ↔
      exRow1 ∈ appFiltered exTable "Google Pay" ∧
        exRow1.reviewCreatedVersion = some "1.0") :=
  ⟨(version_filter_spec exTable "Google Pay" "1.0").1,
   (version_filter_spec exTable "Google Pay" "1.0").2 (by decide) exRow1⟩

/-! ### Question answering (lines 57–65) -/

/-- Python's substring test `pat in s` on the character list of `s`: true iff
`pat` occurs contiguously in `s`. -/
def containsAux (pat : List Char) : List Char → Bool
  | [] => pat.isEmpty
  | c :: t => pat.isPrefixOf (c :: t) || containsAux pat t

/-- Python's `pat in s` for strings. -/
def strContains (s pat : String) : Bool := containsAux pat.data s.data

/-- Python's `question.lower()`: `Char.toLower` on every character (the
question text and the hard-coded patterns are basic latin, where the two
agree). -/
def lower (s : String) : String := String.mk (s.data.map Char.toLower)

/-- The fixed fallback message of line 65. -/
def notRecognizedMsg : String := "Question not recognized. Try a different query."

/-- Line 62 generalized over the app: the number of rows of the table whose
`app_name` is the given app and whose `sentiment_label` is "negative".  The
source instantiates it only at "Google Pay". -/
def negativeCountFor (df : List Review) (a : String) : Nat :=
  (df.filter (fun r => r.app_name == a && r.sentiment_label == "negative")).length

/-- Lines 59–65: the single-intent question matcher.  Both the pattern test
and the counted app are hard-coded to "google pay" / "Google Pay"; the count
is taken over the whole table `df`, not the filtered view. -/
def answer (df : List Review) (question : String) : String :=
  if strContains (lower question) "negative" && strContains (lower question) "google pay" then
    " **Google Pay has " ++ toString (negativeCountFor df "Google Pay")
      ++ " negative reviews**."
  else
    notRecognizedMsg

theorem containsAux_eq_true_of_middle :
    ∀ {s pat : List Char}, pat <:+: s → containsAux pat s = true := by
  intro s
  induction s with
  | nil =>
    intro pat h
    rw [List.eq_nil_of_infix_nil h]
    rfl
  | cons c t ih =>
    intro pat h
    rcases h with ⟨u, v, huv⟩
    cases u with
    | nil =>
      have hp : pat <+: c :: t := ⟨v, by simpa using huv⟩
      simp [containsAux, hp]
    | cons x xs =>
      simp only [List.cons_append] at huv
      injection huv with h1 h2
      simp [containsAux, ih ⟨xs, v, h2⟩]

/-- A string occurs as a substring of any concatenation around it. -/
theorem strContains_append_middle (pre mid post : String) :
    strContains (pre ++ mid ++ post) mid = true := by
  apply containsAux_eq_true_of_middle
  exact ⟨pre.data, post.data, by simp⟩

/-- A question matching the hard-coded pattern is answered with the Google
Pay negative-review count over the whole table. -/
theorem answer_matched (df : List Review) (q : String)
    (h1 : strContains (lower q) "negative" = true)
    (h2 : strContains (lower q) "google pay" = true) :
    answer df q = " **Google Pay has " ++ toString (negativeCountFor df "Google Pay")
      ++ " negative reviews**." := by
  simp [answer, h1, h2]

/-- A question not matching the hard-coded pattern gets the fixed message. -/
theorem answer_unmatched (df : List Review) (q : String)
    (h : ¬(strContains (lower q) "negative" = true ∧
        strContains (lower q) "google pay" = true)) :
    answer df q = notRecognizedMsg := by
  have hb : ¬((strContains (lower q) "negative"
      && strContains (lower q) "google pay") = true) := by
    simpa [Bool.and_eq_true] using h
  simp only [answer, if_neg hb]

/-! ### C3: the recognized pattern -/

def exTable3 : List Review := [⟨"PayPal", none, "negative", -1, "2023-02-01 09:00:00"⟩]

/-- Claim C3 is refuted as stated: "PayPal" is an app name occurring in the table
and the question "negative PayPal" contains (case-insensitively) both
"negative" and that app name, yet `answer` returns the fixed not-recognized
message instead of a string containing the count (1) of negative PayPal
rows — the matcher only ever recognizes "google pay". -/
theorem answer_ignores_other_apps :
    "PayPal" ∈ app_names exTable3 ∧
    strContains (lower "negative PayPal") (lower "negative") = true ∧
    strContains (lower "negative PayPal") (lower "PayPal") = true ∧
    negativeCountFor exTable3 "PayPal" = 1 ∧
    answer exTable3 "negative PayPal" = notRecognizedMsg ∧
    strContains (answer exTable3 "negative PayPal")
      (toString (negativeCountFor exTable3 "PayPal")) = false := by
  decide

/-- Claim C3, amended: the matcher recognizes exactly one hard-coded pattern —
the question contains (case-insensitively) both "negative" and "google pay".
A matching question is answered with the Google Pay negative-review count
over the whole table; every other question, including questions naming other
apps present in the table, gets the fixed not-recognized message. -/
theorem answer_single_intent (df : List Review) (q : String) :
    (strContains (lower q) "negative" = true →
      strContains (lower q) "google pay" = true →
      answer df q = " **Google Pay has "
        ++ toString (negativeCountFor df "Google Pay") ++ " negative reviews**.") ∧
    (¬(strContains (lower q) "negative" = true ∧
        strContains (lower q) "google pay" = true) →
      answer df q = notRecognizedMsg) :=
  ⟨fun h1 h2 => answer_matched df q h1 h2, fun h => answer_unmatched df q h⟩

theorem answer_single_intent_witness :
    answer exTable "How many negative reviews for Google Pay?" =
      " **Google Pay has " ++ toString (negativeCountFor exTable "Google Pay")
        ++ " negative reviews**." ∧
    answer exTable "what is the weather" = notRecognizedMsg :=
  ⟨(answer_single_intent exTable "How many negative reviews for Google Pay?").1
      (by decide) (by decide),
   (answer_single_intent exTable "what is the weather").2 (by decide)⟩

/-! ### C4: the canonical question -/

/-- Claim C4: for every table, the answer to "How many negative reviews for Google
Pay?" contains, as a substring, the decimal rendering of the exact number of
rows with `app_name` "Google Pay" and `sentiment_label` "negative". -/
theorem answer_contains_exact_count (df : List Review) :
    strContains (answer df "How many negative reviews for Google Pay?")
      (toString (negativeCountFor df "Google Pay")) = true := by
  rw [answer_matched df "How many negative reviews for Google Pay?"
    (by decide) (by decide)]
  exact strContains_append_middle " **Google Pay has "
    (toString (negativeCountFor df "Google Pay")) " negative reviews**."

/-! ### Chart data preparation (lines 70–73, 118–119, 130) -/

/-- Lines 70–72: `filtered_df['sentiment_label'].value_counts()` reshaped
into the (label, count) table `sentiment_df`.  `value_counts` lists each
distinct label of the view with its frequency, most frequent first. -/
def sentiment_counts (view : List Review) : List (String × Nat) :=
  let labels := view.map (·.sentiment_label)
  ((unique labels).map (fun l => (l, labels.count l))).mergeSort
    (fun a b => decide (b.2 ≤ a.2))

/-- Lines 73 and 118–119: daily review volume.  `toDate` abstracts the
library conversion `pd.to_datetime` of line 73 composed with `.dt.date` of
line 118, mapping a raw timestamp string to a calendar date; `groupby`
returns its keys sorted ascending, each key once, and `.size()` counts the
rows of each group. -/
def daily_counts (toDate : String → Nat) (view : List Review) : List (Nat × Nat) :=
  let dates := view.map (fun r => toDate r.«at»)
  (dates.toFinset.sort (· ≤ ·)).map (fun d => (d, dates.count d))

/-- Line 130, one cell of
`groupby(['reviewCreatedVersion', 'sentiment_label']).size().unstack().fillna(0)`:
the number of rows of the view carrying exactly this (version, label) pair.
A pair absent from the view has no group, and `unstack` + `fillna(0)` fill
its cell with 0, which is exactly the count of matching rows, so one
counting function gives every cell of the filled matrix; the integer result
models the float cell after `fillna(0)`. -/
def heatmapCell (view : List Review) (v l : String) : Int :=
  ((view.filter (fun r => r.reviewCreatedVersion == some v
      && r.sentiment_label == l)).length : Int)

/-- Row index of the heatmap: the distinct non-null versions of the view
(`groupby` drops null keys and sorts the remaining ones ascending). -/
def heatmapVersions (view : List Review) : List String :=
  (view.filterMap (·.reviewCreatedVersion)).toFinset.sort (· ≤ ·)

/-- Column index of the heatmap: the distinct sentiment labels among the
rows with a non-null version. -/
def heatmapLabels (view : List Review) : List String :=
  ((view.filter (fun r => r.reviewCreatedVersion.isSome)).map
    (·.sentiment_label)).toFinset.sort (· ≤ ·)

/-! ### C7: sentiment counts total -/

/-- Claim C7: for every app/version selection, the per-label counts produced by
`sentiment_counts` sum to the number of rows of the filtered view. -/
theorem sentiment_counts_total (df : List Review) (app ver : String) :
    ((sentiment_counts (filtered_df df app ver)).map Prod.snd).sum
      = (filtered_df df app ver).length := by
  set view := filtered_df df app ver
  have hperm : List.Perm (sentiment_counts view)
      ((unique (view.map (·.sentiment_label))).map
        (fun l => (l, (view.map (·.sentiment_label)).count l))) :=
    List.mergeSort_perm _ _
  rw [(hperm.map Prod.snd).sum_eq, List.map_map]
  have hcomp : (Prod.snd ∘ fun l => (l, (view.map (·.sentiment_label)).count l))
      = fun l => (view.map (·.sentiment_label)).count l := rfl
  rw [hcomp, sum_count_of_nodup (unique (view.map (·.sentiment_label)))
    (nodup_unique _) (view.map (·.sentiment_label)) (fun x hx => mem_unique.mpr hx),
    List.length_map]

/-! ### C6: daily volume is strictly ascending -/

/-- Claim C6: for every filtered view (and any timestamp-to-date conversion), the
daily-volume sequence is sorted strictly ascending by date; in particular no
date appears twice. -/
theorem daily_counts_sorted (toDate : String → Nat) (view : List Review) :
    ((daily_counts toDate view).map Prod.fst).Sorted (· < ·) ∧
    ((daily_counts toDate view).map Prod.fst).Nodup := by
  have hkeys : (daily_counts toDate view).map Prod.fst
      = (view.map (fun r => toDate r.«at»)).toFinset.sort (· ≤ ·) := by
    simp only [daily_counts, List.map_map]
    exact List.map_id _
  rw [hkeys]
  exact ⟨Finset.sort_sorted_lt _, Finset.sort_nodup _ _⟩

/-! ### C5: heatmap cells -/

/-- Claim C5: heatmap cells are never negative; a (version, label) combination
with no matching row in the view has its cell filled with 0; a combination
observed in the view has a cell of at least 1. -/
theorem heatmap_cells (view : List Review) (v l : String) :
    0 ≤ heatmapCell view v l ∧
    ((¬∃ r ∈ view, r.reviewCreatedVersion = some v ∧ r.sentiment_label = l) →
      heatmapCell view v l = 0) ∧
    ((∃ r ∈ view, r.reviewCreatedVersion = some v ∧ r.sentiment_label = l) →
      1 ≤ heatmapCell view v l) := by
  refine ⟨?_, fun h => ?_, fun h => ?_⟩
  · simp only [heatmapCell]
    exact_mod_cast Nat.zero_le _
  · have hnil : view.filter (fun r => r.reviewCreatedVersion == some v
        && r.sentiment_label == l) = [] := by
      rw [List.filter_eq_nil_iff]
      intro r hr hc
      exact h ⟨r, hr, by simpa [Bool.and_eq_true] using hc⟩
    simp [heatmapCell, hnil]
  · rcases h with ⟨r, hr, h1, h2⟩
    have hmem : r ∈ view.filter (fun r => r.reviewCreatedVersion == some v
        && r.sentiment_label == l) :=
      List.mem_filter.mpr ⟨hr, by simp [h1, h2]⟩
    have hpos := List.length_pos_of_mem hmem
    simp only [heatmapCell]
    exact_mod_cast hpos

theorem heatmap_cells_witness :
    heatmapCell exTable "9.9" "negative" = 0 ∧
    1 ≤ heatmapCell exTable "1.0" "negative" :=
  ⟨(heatmap_cells exTable "9.9" "negative").2.1 (by decide),
   (heatmap_cells exTable "1.0" "negative").2.2 ⟨exRow1, by decide, rfl, rfl⟩⟩

/-! ### The script run as a whole -/

/-- Outcome of one run of the script body for fixed widget values: either
the startup halt of lines 16–18 (`st.error` followed by `st.stop()`), or a
rendered page carrying the answer text of the question block (when a
question was typed), the sentiment table and the filtered view feeding the
charts. -/
inductive AppOutput where
  | halted (msg : String)
  | page (answerText : Option String) (sentimentTable : List (String × Nat))
      (view : List Review)
deriving DecidableEq

/-- One run of the script body: if the backing file is absent (`data` is
`none`), lines 16–18 emit the error and stop before `load_data` ever runs,
so nothing is filtered or aggregated; otherwise the table is loaded, the
view filtered (lines 31, 36–37), the question block of lines 59–65 answered
from the whole table `df` (an empty text box is falsy in Python and yields
no answer), and the page rendered. -/
def runApp (data : Option (List Review)) (app ver question : String) : AppOutput :=
  match data with
  | none => .halted "Data file not found. Please run sentiment analysis script first."
  | some df =>
    let view := filtered_df df app ver
    let ans : Option String :=
      if question = "" then none else some (answer df question)
    .page ans (sentiment_counts view) view

/-- The answer text shown by a run, if any. -/
def answerTextOf : AppOutput → Option String
  | .halted _ => none
  | .page ans _ _ => ans

/-! ### C8: missing data file -/

/-- Claim C8: with the backing file absent, the run halts with the user-visible
error message and renders no page: no filtering or aggregation output
exists. -/
theorem missing_file_halts (app ver question : String) :
    runApp none app ver question =
      .halted "Data file not found. Please run sentiment analysis script first." ∧
    ∀ ans counts view, runApp none app ver question ≠ .page ans counts view :=
  ⟨rfl, fun _ _ _ h => AppOutput.noConfusion h⟩

/-! ### C10: the answer ignores the selectors -/

/-- Claim C10: the answer text depends only on the loaded table and the question —
two runs with the same data and question but different app/version
selections show the same answer, and that answer is computed from the
unfiltered table. -/
theorem answer_independent_of_selection (df : List Review)
    (q app1 ver1 app2 ver2 : String) :
    answerTextOf (runApp (some df) app1 ver1 q)
      = answerTextOf (runApp (some df) app2 ver2 q) ∧
    answerTextOf (runApp (some df) app1 ver1 q)
      = (if q = "" then none else some (answer df q)) :=
  ⟨rfl, rfl⟩

/-! ### C9: the source table is not mutated -/

/-- A review row after line 73 rewrote the `at` column with
`pd.to_datetime`: the timestamp now holds a parsed value. -/
structure ReviewDT where
  app_name : String
  reviewCreatedVersion : Option String
  sentiment_label : String
  sentiment_score : Int
  «at» : Nat
deriving DecidableEq

/-- Line 73 on one row: replace the raw `at` string by its parsed value,
every other column untouched (`toDT` abstracts `pd.to_datetime`). -/
def convertAt (toDT : String → Nat) (r : Review) : ReviewDT :=
  ⟨r.app_name, r.reviewCreatedVersion, r.sentiment_label, r.sentiment_score,
    toDT r.«at»⟩

/-- Lines 31, 36–37 and 73 as explicit state passing over the two frames the
script names: each pandas boolean-mask indexing returns a new frame (a
copy), and the column assignment of line 73 writes into the copy bound to
`filtered_df`; the pair returned is (the frame named `df`, the final
`filtered_df`). -/
def scriptRun (toDT : String → Nat) (df : List Review) (app ver : String) :
    List Review × List ReviewDT :=
  let f1 := df.filter (fun r => r.app_name == app)
  let f2 := if ver == "All" then f1
    else f1.filter (fun r => r.reviewCreatedVersion == some ver)
  let f3 := f2.map (convertAt toDT)
  (df, f3)

/-- Claim C9: after the app/version filtering and the `at`-column conversion of
the filtered copy, the loaded table is unchanged — the `df` component of the
final state equals the input row for row — and the final view was derived
from that unchanged table. -/
theorem source_table_not_mutated (toDT : String → Nat) (df : List Review)
    (app ver : String) :
    (scriptRun toDT df app ver).1 = df ∧
    (scriptRun toDT df app ver).2
      = (filtered_df df app ver).map (convertAt toDT) :=
  ⟨rfl, rfl⟩

end FinTech
